import Mathlib

/-!
Verification of the blog API in `src/main.py`: a FastAPI service over a
SQLite store with two tables, `blog_posts` and `comments`.  The store is
embedded as lists in insertion order (SQLite rowid order) together with
fresh-id counters; timestamps (`datetime.utcnow`) are abstracted as
naturals supplied to each operation.  Pydantic field validation runs
before a handler body, so each endpoint function checks validation first.
-/

namespace Blog

/-- Row of the `blog_posts` table (class `BlogPost` in src/main.py). -/
structure BlogPost where
  id : Nat
  title : String
  content : String
  created_at : Nat
  updated_at : Nat
deriving Repr, DecidableEq

/-- Row of the `comments` table (class `Comment` in src/main.py);
`blog_post_id` is the foreign key to `blog_posts.id`. -/
structure Comment where
  id : Nat
  content : String
  author : String
  created_at : Nat
  blog_post_id : Nat
deriving Repr, DecidableEq

/-- The relational store: both tables in insertion order plus the
autoincrement counters of the two integer primary keys. -/
structure Store where
  posts : List BlogPost
  comments : List Comment
  nextPostId : Nat
  nextCommentId : Nat
deriving Repr, DecidableEq

/-- The freshly created database (`Base.metadata.create_all`): both tables
empty, SQLite autoincrement starting at 1. -/
def initStore : Store :=
  { posts := [], comments := [], nextPostId := 1, nextCommentId := 1 }

/-- The ORM relationship `BlogPost.comments`: the comments whose foreign
key references the post, in insertion order. -/
def postComments (s : Store) (pid : Nat) : List Comment :=
  s.comments.filter (fun c => c.blog_post_id == pid)

/-- Pydantic model `BlogPostCreate`/`BlogPostBase`: title
`Field(min_length=1, max_length=255)`, content `Field(min_length=1)`. -/
def validPostCreate (title content : String) : Bool :=
  1 ≤ title.length && title.length ≤ 255 && 1 ≤ content.length

/-- Pydantic model `CommentCreate`/`CommentBase`: content
`Field(min_length=1, max_length=1000)`, author
`Field(min_length=1, max_length=100)`. -/
def validCommentCreate (content author : String) : Bool :=
  1 ≤ content.length && content.length ≤ 1000 &&
  1 ≤ author.length && author.length ≤ 100

/-- Response model `BlogPostSummary`. -/
structure BlogPostSummary where
  id : Nat
  title : String
  comment_count : Nat
  created_at : Nat
deriving Repr, DecidableEq

/-- Response model `CommentResponse`. -/
structure CommentResponse where
  id : Nat
  content : String
  author : String
  created_at : Nat
deriving Repr, DecidableEq

/-- Response model `BlogPostResponse` (full post with nested comments). -/
structure BlogPostResponse where
  id : Nat
  title : String
  content : String
  created_at : Nat
  updated_at : Nat
  comments : List CommentResponse
deriving Repr, DecidableEq

/-- Serialization of a `Comment` row into `CommentResponse`. -/
def commentToResponse (c : Comment) : CommentResponse :=
  { id := c.id, content := c.content, author := c.author,
    created_at := c.created_at }

/-- Serialization of a `BlogPost` row into `BlogPostResponse`, reading the
`comments` relationship from the store. -/
def postToResponse (s : Store) (p : BlogPost) : BlogPostResponse :=
  { id := p.id, title := p.title, content := p.content,
    created_at := p.created_at, updated_at := p.updated_at,
    comments := (postComments s p.id).map commentToResponse }

/-- Endpoint `GET /api/posts` (`get_all_posts`): query all posts and build
the summary list with a loop appending one summary per post; status 200. -/
def get_all_posts (s : Store) : Nat × List BlogPostSummary :=
  (200, s.posts.foldl
    (fun result post => result ++
      [{ id := post.id, title := post.title,
         comment_count := (postComments s post.id).length,
         created_at := post.created_at }]) [])

/-- Endpoint `GET /api/posts/{post_id}` (`get_post`): first post matching
the id, 404 when none. -/
def get_post (s : Store) (pid : Nat) : Nat × Option BlogPostResponse :=
  match s.posts.find? (fun p => p.id == pid) with
  | none => (404, none)
  | some p => (200, some (postToResponse s p))

/-- Endpoint `POST /api/posts` (`create_post`): Pydantic validation of the
body, then insert a row with both timestamps set to now; 201 with the full
representation, 422 on invalid input. -/
def create_post (s : Store) (title content : String) (now : Nat) :
    Nat × Option BlogPostResponse × Store :=
  if validPostCreate title content then
    let p : BlogPost :=
      { id := s.nextPostId, title := title, content := content,
        created_at := now, updated_at := now }
    let s' : Store :=
      { s with posts := s.posts ++ [p], nextPostId := s.nextPostId + 1 }
    (201, some (postToResponse s' p), s')
  else
    (422, none, s)

/-- Endpoint `POST /api/posts/{post_id}/comments` (`create_comment`):
Pydantic validation of the body, then existence check of the post (404
when absent), then insert of the comment row; 201 echoing the fields. -/
def create_comment (s : Store) (pid : Nat) (content author : String)
    (now : Nat) : Nat × Option CommentResponse × Store :=
  if validCommentCreate content author then
    match s.posts.find? (fun p => p.id == pid) with
    | none => (404, none, s)
    | some _ =>
      let c : Comment :=
        { id := s.nextCommentId, content := content, author := author,
          created_at := now, blog_post_id := pid }
      let s' : Store :=
        { s with comments := s.comments ++ [c],
                 nextCommentId := s.nextCommentId + 1 }
      (201, some (commentToResponse c), s')
  else
    (422, none, s)

/-- Modelled from the spec: the persistence layer's delete-post operation.
src/main.py declares the cascade (`cascade="all, delete-orphan"` on
`BlogPost.comments`, line 28) but exposes no endpoint or function that
deletes a post; this is the SQLAlchemy `Session.delete` behaviour that the
declaration configures: the post row is removed and every comment whose
foreign key references it is removed with it. -/
def delete_post (s : Store) (pid : Nat) : Nat × Store :=
  match s.posts.find? (fun p => p.id == pid) with
  | none => (404, s)
  | some _ =>
    (200, { s with posts := s.posts.filter (fun p => p.id != pid),
                   comments :=
                     s.comments.filter (fun c => c.blog_post_id != pid) })

/-- Modelled from the spec: modification of a post.  src/main.py declares
`onupdate=datetime.utcnow` on `BlogPost.updated_at` (line 27) but exposes
no endpoint that modifies a post; this models the SQLAlchemy UPDATE
behaviour the declaration configures: the modified row keeps its id and
`created_at` and gets `updated_at` refreshed to now. -/
def update_post (s : Store) (pid : Nat) (title content : String)
    (now : Nat) : Store :=
  { s with posts := s.posts.map (fun p =>
      if p.id == pid then
        { p with title := title, content := content, updated_at := now }
      else p) }

/-- States reachable from the fresh database by the exposed operations.
`GET` endpoints do not change the store, so only the two creating
endpoints appear; their failure branches return the store unchanged. -/
inductive Reachable : Store → Prop where
  | init : Reachable initStore
  | stepPost (s : Store) (t c : String) (now : Nat) :
      Reachable s → Reachable (create_post s t c now).2.2
  | stepComment (s : Store) (pid : Nat) (c a : String) (now : Nat) :
      Reachable s → Reachable (create_comment s pid c a now).2.2

/-- Referential-integrity invariant: post ids are below the autoincrement
counter and pairwise distinct, and every comment's foreign key references
a stored post. -/
def Inv (s : Store) : Prop :=
  (∀ p ∈ s.posts, p.id < s.nextPostId) ∧
  (s.posts.map (fun p => p.id)).Nodup ∧
  (∀ c ∈ s.comments, ∃ p ∈ s.posts, p.id = c.blog_post_id)

/-- The summary built for one post by the `get_all_posts` loop. -/
def summarize (s : Store) (post : BlogPost) : BlogPostSummary :=
  { id := post.id, title := post.title,
    comment_count := (postComments s post.id).length,
    created_at := post.created_at }

/-- Concrete store after one `POST /api/posts` on the fresh database. -/
def demoS1 : Store := (create_post initStore "T" "Body" 0).2.2

/-- Concrete store after additionally one comment on post 1. -/
def demoS2 : Store := (create_comment demoS1 1 "hi" "Ann" 1).2.2

/-- The single post row of `demoS1`/`demoS2`. -/
def demoPost : BlogPost :=
  { id := 1, title := "T", content := "Body", created_at := 0,
    updated_at := 0 }

/-- The single comment row of `demoS2`. -/
def demoComment : Comment :=
  { id := 1, content := "hi", author := "Ann", created_at := 1,
    blog_post_id := 1 }

/-- The response body returned by `create_post demoS1 "A" "B" 7`. -/
def demoR8 : BlogPostResponse :=
  { id := 2, title := "A", content := "B", created_at := 7,
    updated_at := 7, comments := [] }

lemma inv_init : Inv initStore := by
  refine ⟨?_, ?_, ?_⟩ <;> simp [initStore]

lemma inv_create_post (s : Store) (t c : String) (now : Nat)
    (h : Inv s) : Inv (create_post s t c now).2.2 := by
  obtain ⟨hlt, hnd, hfk⟩ := h
  unfold create_post
  by_cases hv : validPostCreate t c
  · simp only [hv, if_true]
    refine ⟨?_, ?_, ?_⟩
    · intro p hp
      rcases List.mem_append.mp hp with hp | hp
      · exact Nat.lt_succ_of_lt (hlt p hp)
      · simp only [List.mem_singleton] at hp
        subst hp
        exact Nat.lt_succ_self _
    · simp only [List.map_append, List.map_cons, List.map_nil]
      rw [List.nodup_append]
      refine ⟨hnd, List.nodup_singleton _, ?_⟩
      intro x hx hx'
      simp only [List.mem_singleton] at hx'
      subst hx'
      rcases List.mem_map.mp hx with ⟨p, hp, hpid⟩
      exact absurd hpid (Nat.ne_of_lt (hlt p hp))
    · intro cm hcm
      rcases hfk cm hcm with ⟨p, hp, hpid⟩
      exact ⟨p, List.mem_append_left _ hp, hpid⟩
  · simp only [hv, if_false]
    exact ⟨hlt, hnd, hfk⟩

lemma inv_create_comment (s : Store) (pid : Nat) (c a : String)
    (now : Nat) (h : Inv s) : Inv (create_comment s pid c a now).2.2 := by
  obtain ⟨hlt, hnd, hfk⟩ := h
  unfold create_comment
  by_cases hv : validCommentCreate c a
  · simp only [hv, if_true]
    cases hfind : s.posts.find? (fun p => p.id == pid) with
    | none => exact ⟨hlt, hnd, hfk⟩
    | some p =>
      have hp : p ∈ s.posts := List.mem_of_find?_eq_some hfind
      have hsat := List.find?_some hfind
      have hpid : p.id = pid := by simpa using hsat
      refine ⟨hlt, hnd, ?_⟩
      intro cm hcm
      rcases List.mem_append.mp hcm with hcm | hcm
      · exact hfk cm hcm
      · simp only [List.mem_singleton] at hcm
        subst hcm
        exact ⟨p, hp, hpid⟩
  · simp only [hv, if_false]
    exact ⟨hlt, hnd, hfk⟩

lemma reachable_inv {s : Store} (h : Reachable s) : Inv s := by
  induction h with
  | init => exact inv_init
  | stepPost s t c now _ ih => exact inv_create_post s t c now ih
  | stepComment s pid c a now _ ih => exact inv_create_comment s pid c a now ih

/-- In a list of posts with pairwise distinct ids, filtering on the id of
a member yields exactly one row. -/
lemma filter_id_length_one (l : List BlogPost)
    (hnd : (l.map (fun p => p.id)).Nodup) (x : BlogPost) (hx : x ∈ l)
    (k : Nat) (hk : x.id = k) :
    (l.filter (fun p => p.id == k)).length = 1 := by
  induction l with
  | nil => cases hx
  | cons a l ih =>
    simp only [List.map_cons, List.nodup_cons] at hnd
    rcases List.mem_cons.mp hx with hx | hx
    · subst hx
      have hak : (x.id == k) = true := beq_iff_eq.mpr hk
      rw [List.filter_cons, if_pos hak]
      have hrest : l.filter (fun p => p.id == k) = [] := by
        rw [List.filter_eq_nil_iff]
        intro p hp hcon
        have hpk : p.id = k := beq_iff_eq.mp hcon
        have hmem : p.id ∈ l.map (fun q => q.id) :=
          List.mem_map_of_mem (fun q => q.id) hp
        exact hnd.1 (by rwa [hpk, ← hk] at hmem)
      simp [hrest]
    · have hak : ¬ (a.id == k) = true := by
        intro hcon
        have hak : a.id = k := beq_iff_eq.mp hcon
        have hmem : x.id ∈ l.map (fun q => q.id) :=
          List.mem_map_of_mem (fun q => q.id) hx
        exact hnd.1 (by rwa [hk, ← hak] at hmem)
      rw [List.filter_cons, if_neg hak]
      exact ih hnd.2 hx

lemma foldl_append_singleton {α β : Type} (f : α → β) (l : List α)
    (acc : List β) :
    l.foldl (fun result x => result ++ [f x]) acc = acc ++ l.map f := by
  induction l generalizing acc with
  | nil => simp
  | cons a l ih => simp [ih]

lemma get_all_posts_eq_map (s : Store) :
    (get_all_posts s).2 = s.posts.map (summarize s) := by
  unfold get_all_posts summarize
  exact foldl_append_singleton _ _ []

lemma demoReachS2 : Reachable demoS2 :=
  Reachable.stepComment demoS1 1 "hi" "Ann" 1
    (Reachable.stepPost initStore "T" "Body" 0 Reachable.init)

lemma validPostCreate_iff (t c : String) :
    validPostCreate t c = true ↔
      (1 ≤ t.length ∧ t.length ≤ 255 ∧ 1 ≤ c.length) := by
  simp [validPostCreate, and_assoc]

lemma validCommentCreate_iff (content author : String) :
    validCommentCreate content author = true ↔
      (1 ≤ content.length ∧ content.length ≤ 1000 ∧
       1 ≤ author.length ∧ author.length ≤ 100) := by
  simp [validCommentCreate, and_assoc]


lemma create_post_eq_of_valid (s : Store) (t c : String) (now : Nat)
    (hv : validPostCreate t c = true) :
    create_post s t c now =
      (201,
       some (postToResponse
         { s with
           posts := s.posts ++
             [{ id := s.nextPostId, title := t, content := c,
                created_at := now, updated_at := now }],
           nextPostId := s.nextPostId + 1 }
         { id := s.nextPostId, title := t, content := c,
           created_at := now, updated_at := now }),
       { s with
         posts := s.posts ++
           [{ id := s.nextPostId, title := t, content := c,
              created_at := now, updated_at := now }],
         nextPostId := s.nextPostId + 1 }) := by
  unfold create_post
  rw [if_pos hv]

lemma create_post_eq_of_invalid (s : Store) (t c : String) (now : Nat)
    (hv : ¬ validPostCreate t c = true) :
    create_post s t c now = (422, none, s) := by
  unfold create_post
  rw [if_neg hv]

lemma create_comment_eq_of_invalid (s : Store) (pid : Nat)
    (content author : String) (now : Nat)
    (hv : ¬ validCommentCreate content author = true) :
    create_comment s pid content author now = (422, none, s) := by
  unfold create_comment
  rw [if_neg hv]

lemma create_comment_eq_of_absent (s : Store) (pid : Nat)
    (content author : String) (now : Nat)
    (hv : validCommentCreate content author = true)
    (hfind : s.posts.find? (fun p => p.id == pid) = none) :
    create_comment s pid content author now = (404, none, s) := by
  unfold create_comment
  rw [if_pos hv, hfind]

lemma create_comment_eq_of_present (s : Store) (pid : Nat)
    (content author : String) (now : Nat) (q : BlogPost)
    (hv : validCommentCreate content author = true)
    (hfind : s.posts.find? (fun p => p.id == pid) = some q) :
    create_comment s pid content author now =
      (201,
       some (commentToResponse
         { id := s.nextCommentId, content := content, author := author,
           created_at := now, blog_post_id := pid }),
       { s with
         comments := s.comments ++
           [{ id := s.nextCommentId, content := content, author := author,
              created_at := now, blog_post_id := pid }],
         nextCommentId := s.nextCommentId + 1 }) := by
  unfold create_comment
  rw [if_pos hv, hfind]

/-- C9: when the store contains no posts, `GET /api/posts` returns status
200 with the empty list. -/
theorem get_all_posts_empty (s : Store) (h : s.posts = []) :
    get_all_posts s = (200, ([] : List BlogPostSummary)) := by
  unfold get_all_posts
  rw [h]
  rfl

/-- Witness for `get_all_posts_empty` at the fresh database. -/
theorem get_all_posts_empty_witness :
    get_all_posts initStore = (200, ([] : List BlogPostSummary)) :=
  get_all_posts_empty initStore rfl

/-- C6: `POST /api/posts` answers 201 exactly when the title has 1 to 255
characters and the content is non-empty; invalid input yields 422, leaves
the store unchanged and creates nothing; valid input appends exactly one
post row and echoes the full representation. -/
theorem create_post_validation (s : Store) (t c : String) (now : Nat) :
    ((create_post s t c now).1 = 201 ↔
      (1 ≤ t.length ∧ t.length ≤ 255 ∧ 1 ≤ c.length)) ∧
    (¬(1 ≤ t.length ∧ t.length ≤ 255 ∧ 1 ≤ c.length) →
      create_post s t c now = (422, none, s)) ∧
    ((1 ≤ t.length ∧ t.length ≤ 255 ∧ 1 ≤ c.length) →
      (create_post s t c now).2.2.posts = s.posts ++
        [{ id := s.nextPostId, title := t, content := c,
           created_at := now, updated_at := now }] ∧
      (create_post s t c now).2.2.comments = s.comments ∧
      ∃ r, (create_post s t c now).2.1 = some r ∧ r.id = s.nextPostId ∧
        r.title = t ∧ r.content = c ∧ r.created_at = now ∧
        r.updated_at = now) := by
  by_cases hv : validPostCreate t c = true
  · have hprop := (validPostCreate_iff t c).mp hv
    rw [create_post_eq_of_valid s t c now hv]
    refine ⟨iff_of_true rfl hprop, fun hcon => absurd hprop hcon, fun _ => ?_⟩
    exact ⟨rfl, rfl, _, rfl, rfl, rfl, rfl, rfl, rfl⟩
  · have hprop := hv ∘ (validPostCreate_iff t c).mpr
    rw [create_post_eq_of_invalid s t c now hv]
    exact ⟨iff_of_false (by simp) hprop, fun _ => rfl,
      fun hcon => absurd hcon hprop⟩

/-- Witness for `create_post_validation`: an empty title is rejected with
422, a valid body is accepted with 201. -/
theorem create_post_validation_witness :
    (create_post demoS1 "" "x" 3).1 = 422 ∧
    (create_post demoS1 "Hello" "World" 3).1 = 201 := by
  constructor
  · have h := (create_post_validation demoS1 "" "x" 3).2.1 (by decide)
    rw [h]
  · exact (create_post_validation demoS1 "Hello" "World" 3).1.mpr
      (by decide)

/-- C7: `POST /api/posts/{id}/comments` escapes the 422 rejection exactly
when content has 1 to 1000 characters and author 1 to 100 characters;
empty content or empty author yields 422 with the store untouched, whether
or not the post exists. -/
theorem create_comment_validation (s : Store) (pid : Nat)
    (content author : String) (now : Nat) :
    ((create_comment s pid content author now).1 ≠ 422 ↔
      (1 ≤ content.length ∧ content.length ≤ 1000 ∧
       1 ≤ author.length ∧ author.length ≤ 100)) ∧
    ((content.length = 0 ∨ author.length = 0) →
      create_comment s pid content author now = (422, none, s)) := by
  by_cases hv : validCommentCreate content author = true
  · have hprop := (validCommentCreate_iff content author).mp hv
    refine ⟨iff_of_true ?_ hprop, ?_⟩
    · cases hfind : s.posts.find? (fun p => p.id == pid) with
      | none =>
        rw [create_comment_eq_of_absent s pid content author now hv hfind]
        simp
      | some q =>
        rw [create_comment_eq_of_present s pid content author now q hv
          hfind]
        simp
    · intro hzero
      rcases hzero with hzero | hzero
      · exact absurd hprop.1 (by omega)
      · exact absurd hprop.2.2.1 (by omega)
  · have hprop := hv ∘ (validCommentCreate_iff content author).mpr
    rw [create_comment_eq_of_invalid s pid content author now hv]
    exact ⟨iff_of_false (by simp) hprop, fun _ => rfl⟩

/-- Witness for `create_comment_validation`: empty content on an existing
post is rejected with 422 and the store is unchanged. -/
theorem create_comment_validation_witness :
    create_comment demoS1 1 "" "Bob" 4 = (422, none, demoS1) :=
  (create_comment_validation demoS1 1 "" "Bob" 4).2 (Or.inl (by decide))

/-- C10: when no stored post matches the id, `POST
/api/posts/{id}/comments` leaves the store completely unchanged, and on a
valid body it answers exactly 404 with no body. -/
theorem create_comment_missing_post_no_write (s : Store) (pid : Nat)
    (content author : String) (now : Nat)
    (hne : ∀ p ∈ s.posts, p.id ≠ pid) :
    (create_comment s pid content author now).2.2 = s ∧
    (validCommentCreate content author = true →
      create_comment s pid content author now = (404, none, s)) := by
  have hfind : s.posts.find? (fun p => p.id == pid) = none := by
    rw [List.find?_eq_none]
    intro p hp
    simpa using hne p hp
  by_cases hv : validCommentCreate content author = true
  · rw [create_comment_eq_of_absent s pid content author now hv hfind]
    exact ⟨rfl, fun _ => rfl⟩
  · rw [create_comment_eq_of_invalid s pid content author now hv]
    exact ⟨rfl, fun hcon => absurd hcon hv⟩

/-- Witness for `create_comment_missing_post_no_write` at an absent post
id. -/
theorem create_comment_missing_post_no_write_witness :
    create_comment demoS1 99 "Hey" "Eve" 3 = (404, none, demoS1) :=
  (create_comment_missing_post_no_write demoS1 99 "Hey" "Eve" 3
    (by decide)).2 (by decide)


/-- C2: `GET /api/posts/{id}` answers 404 exactly when no stored post has
the requested id; when a matching post exists a body is returned, and any
returned body comes with status 200 and is the matching full post, whose
nested comment list holds exactly the comments referencing the post, in
insertion order (a sublist of the comments table). -/
theorem get_post_contract (s : Store) (pid : Nat) :
    ((get_post s pid).1 = 404 ↔ ∀ p ∈ s.posts, p.id ≠ pid) ∧
    ((get_post s pid).1 = 404 → (get_post s pid).2 = none) ∧
    ((∃ p, p ∈ s.posts ∧ p.id = pid) →
      ∃ r, (get_post s pid).2 = some r) ∧
    (∀ r, (get_post s pid).2 = some r →
      (get_post s pid).1 = 200 ∧
      (∃ p, p ∈ s.posts ∧ p.id = pid ∧ r.id = p.id ∧ r.title = p.title ∧
        r.content = p.content ∧ r.created_at = p.created_at ∧
        r.updated_at = p.updated_at) ∧
      ∃ l : List Comment, l.Sublist s.comments ∧
        (∀ cm, cm ∈ l ↔ cm ∈ s.comments ∧ cm.blog_post_id = pid) ∧
        r.comments = l.map commentToResponse) := by
  cases hfind : s.posts.find? (fun p => p.id == pid) with
  | none =>
    have hall : ∀ p ∈ s.posts, p.id ≠ pid := by
      intro p hp
      have := List.find?_eq_none.mp hfind p hp
      simpa using this
    have hres : get_post s pid = (404, none) := by
      unfold get_post
      rw [hfind]
    rw [hres]
    refine ⟨iff_of_true rfl hall, fun _ => rfl, ?_, ?_⟩
    · intro hex
      rcases hex with ⟨p, hp, hpid⟩
      exact absurd hpid (hall p hp)
    · intro r hr
      cases hr
  | some q =>
    have hq : q ∈ s.posts := List.mem_of_find?_eq_some hfind
    have hsat := List.find?_some hfind
    have hqid : q.id = pid := by simpa using hsat
    have hres : get_post s pid = (200, some (postToResponse s q)) := by
      unfold get_post
      rw [hfind]
    rw [hres]
    refine ⟨iff_of_false (by simp) ?_, by simp, ?_, ?_⟩
    · intro hall
      exact hall q hq hqid
    · intro _
      exact ⟨postToResponse s q, rfl⟩
    · intro r hr
      have hr' : r = postToResponse s q := by
        simpa using hr.symm
      subst hr'
      refine ⟨rfl, ⟨q, hq, hqid, rfl, rfl, rfl, rfl, rfl⟩,
        postComments s q.id, List.filter_sublist s.comments, ?_, rfl⟩
      intro cm
      rw [postComments, List.mem_filter, hqid]
      simp

/-- Witness for `get_post_contract`: an absent id yields 404, and the
present post 1 yields a returned body. -/
theorem get_post_contract_witness :
    (get_post demoS2 99).1 = 404 ∧
    ∃ r, (get_post demoS2 1).2 = some r :=
  ⟨(get_post_contract demoS2 99).1.mpr (by decide),
   (get_post_contract demoS2 1).2.2.1 ⟨demoPost, by decide, by decide⟩⟩

/-- C3: on a valid body, `POST /api/posts/{id}/comments` answers 404
exactly when no stored post has the id, changing nothing; when the post
exists it answers 201, appends exactly one comment row referencing the
post, and echoes content and author in the body. -/
theorem create_comment_contract (s : Store) (pid : Nat)
    (content author : String) (now : Nat)
    (hv : validCommentCreate content author = true) :
    ((create_comment s pid content author now).1 = 404 ↔
      ∀ p ∈ s.posts, p.id ≠ pid) ∧
    ((create_comment s pid content author now).1 = 404 →
      create_comment s pid content author now = (404, none, s)) ∧
    ((∃ p, p ∈ s.posts ∧ p.id = pid) →
      (create_comment s pid content author now).1 = 201 ∧
      (create_comment s pid content author now).2.2.comments =
        s.comments ++
          [{ id := s.nextCommentId, content := content, author := author,
             created_at := now, blog_post_id := pid }] ∧
      (create_comment s pid content author now).2.2.posts = s.posts ∧
      ∃ r, (create_comment s pid content author now).2.1 = some r ∧
        r.content = content ∧ r.author = author ∧
        r.created_at = now) := by
  cases hfind : s.posts.find? (fun p => p.id == pid) with
  | none =>
    have hall : ∀ p ∈ s.posts, p.id ≠ pid := by
      intro p hp
      have := List.find?_eq_none.mp hfind p hp
      simpa using this
    rw [create_comment_eq_of_absent s pid content author now hv hfind]
    refine ⟨iff_of_true rfl hall, fun _ => rfl, ?_⟩
    intro hex
    rcases hex with ⟨p, hp, hpid⟩
    exact absurd hpid (hall p hp)
  | some q =>
    have hq : q ∈ s.posts := List.mem_of_find?_eq_some hfind
    have hsat := List.find?_some hfind
    have hqid : q.id = pid := by simpa using hsat
    rw [create_comment_eq_of_present s pid content author now q hv hfind]
    refine ⟨iff_of_false (by simp) ?_, by simp, ?_⟩
    · intro hall
      exact hall q hq hqid
    · intro _
      exact ⟨rfl, rfl, rfl, _, rfl, rfl, rfl, rfl⟩

/-- Witness for `create_comment_contract`: a comment on the existing post
1 is created with 201. -/
theorem create_comment_contract_witness :
    (create_comment demoS1 1 "Nice" "Bob" 5).1 = 201 :=
  ((create_comment_contract demoS1 1 "Nice" "Bob" 5 (by decide)).2.2
    ⟨demoPost, by decide, by decide⟩).1

/-- C4: the persistence layer's delete-post operation cascades: deleting a
stored post succeeds and removes every comment whose foreign key
references it, keeps every other comment, and removes the post. -/
theorem delete_post_cascades (s : Store) (p : BlogPost)
    (hp : p ∈ s.posts) :
    (delete_post s p.id).1 = 200 ∧
    (∀ cm ∈ (delete_post s p.id).2.comments, cm.blog_post_id ≠ p.id) ∧
    (∀ cm ∈ s.comments, cm.blog_post_id ≠ p.id →
      cm ∈ (delete_post s p.id).2.comments) ∧
    (∀ q ∈ (delete_post s p.id).2.posts, q.id ≠ p.id) := by
  cases hfind : s.posts.find? (fun q => q.id == p.id) with
  | none =>
    have := List.find?_eq_none.mp hfind p hp
    simp at this
  | some q =>
    have hres : delete_post s p.id =
        (200,
         { s with
           posts := s.posts.filter (fun q => q.id != p.id),
           comments :=
             s.comments.filter (fun c => c.blog_post_id != p.id) }) := by
      unfold delete_post
      rw [hfind]
    rw [hres]
    refine ⟨rfl, ?_, ?_, ?_⟩
    · intro cm hcm
      have := (List.mem_filter.mp hcm).2
      simpa using this
    · intro cm hcm hne
      refine List.mem_filter.mpr ⟨hcm, ?_⟩
      simpa using hne
    · intro q' hq'
      have := (List.mem_filter.mp hq').2
      simpa using this

/-- Witness for `delete_post_cascades`: deleting post 1 from the store
with one comment on it succeeds. -/
theorem delete_post_cascades_witness :
    (delete_post demoS2 demoPost.id).1 = 200 :=
  (delete_post_cascades demoS2 demoPost (by decide)).1

/-- C8: both timestamps of a created post are set to the creation instant,
and a modification refreshes `updated_at` to the modification instant,
which is at least `created_at` whenever the clock did not run backwards
since the rows were written. -/
theorem timestamps_on_create_and_update (s : Store) (t c : String)
    (now : Nat) (pid : Nat) (nt nc : String) (now2 : Nat) :
    (∀ r, (create_post s t c now).2.1 = some r →
      r.created_at = now ∧ r.updated_at = now) ∧
    ((∀ q ∈ s.posts, q.created_at ≤ now2) →
      ∀ p ∈ (update_post s pid nt nc now2).posts, p.id = pid →
        p.updated_at = now2 ∧ p.created_at ≤ p.updated_at) := by
  constructor
  · intro r hr
    by_cases hv : validPostCreate t c = true
    · rw [create_post_eq_of_valid s t c now hv] at hr
      have hr' : r = postToResponse
          { s with
            posts := s.posts ++
              [{ id := s.nextPostId, title := t, content := c,
                 created_at := now, updated_at := now }],
            nextPostId := s.nextPostId + 1 }
          { id := s.nextPostId, title := t, content := c,
            created_at := now, updated_at := now } := by
        simpa using hr.symm
      subst hr'
      exact ⟨rfl, rfl⟩
    · rw [create_post_eq_of_invalid s t c now hv] at hr
      cases hr
  · intro hmono p hp hpid
    rcases List.mem_map.mp hp with ⟨q, hq, hfq⟩
    by_cases hqid : (q.id == pid) = true
    · rw [if_pos hqid] at hfq
      subst hfq
      exact ⟨rfl, hmono q hq⟩
    · rw [if_neg hqid] at hfq
      subst hfq
      exact absurd (beq_iff_eq.mpr hpid) hqid

/-- Witness for `timestamps_on_create_and_update`: the response of
creating a post at instant 7 carries both timestamps 7. -/
theorem timestamps_on_create_and_update_witness :
    demoR8.created_at = 7 ∧ demoR8.updated_at = 7 :=
  (timestamps_on_create_and_update demoS1 "A" "B" 7 1 "nt" "nc" 9).1
    demoR8 (by decide)


/-- C5: in every reachable store, each stored comment references exactly
one stored post through its foreign key. -/
theorem comment_fk_unique (s : Store) (h : Reachable s) :
    ∀ cm ∈ s.comments,
      (s.posts.filter (fun p => p.id == cm.blog_post_id)).length = 1 := by
  obtain ⟨hlt, hnd, hfk⟩ := reachable_inv h
  intro cm hcm
  rcases hfk cm hcm with ⟨p, hp, hpid⟩
  exact filter_id_length_one s.posts hnd p hp cm.blog_post_id hpid

/-- Witness for `comment_fk_unique`: the demo comment references exactly
one post of the reachable demo store. -/
theorem comment_fk_unique_witness :
    (demoS2.posts.filter
      (fun p => p.id == demoComment.blog_post_id)).length = 1 :=
  comment_fk_unique demoS2 demoReachS2 demoComment (by decide)

/-- C1: `GET /api/posts` answers 200 with one summary per stored post in
storage order, each carrying the number of comments whose foreign key
references that post; listing right after creating a post shows the new
post last with `comment_count` 0. -/
theorem get_all_posts_summaries (s : Store) (i : Nat) (t c : String)
    (now : Nat) (hr : Reachable s) :
    (get_all_posts s).1 = 200 ∧
    (get_all_posts s).2.length = s.posts.length ∧
    (get_all_posts s).2[i]? = (s.posts[i]?).map (fun p =>
      { id := p.id, title := p.title,
        comment_count := (s.comments.filter
          (fun cm => cm.blog_post_id == p.id)).length,
        created_at := p.created_at }) ∧
    (validPostCreate t c = true →
      (get_all_posts (create_post s t c now).2.2).2.getLast? =
        some { id := s.nextPostId, title := t, comment_count := 0,
               created_at := now }) := by
  obtain ⟨hlt, hnd, hfk⟩ := reachable_inv hr
  refine ⟨rfl, ?_, ?_, ?_⟩
  · rw [get_all_posts_eq_map, List.length_map]
  · rw [get_all_posts_eq_map, List.getElem?_map]
    rfl
  · intro hv
    have hnil : s.comments.filter
        (fun cm => cm.blog_post_id == s.nextPostId) = [] := by
      rw [List.filter_eq_nil_iff]
      intro cm hcm hbeq
      rcases hfk cm hcm with ⟨p, hp, hpid⟩
      have hlt' := hlt p hp
      have hbp : cm.blog_post_id = s.nextPostId := by simpa using hbeq
      omega
    rw [create_post_eq_of_valid s t c now hv, get_all_posts_eq_map]
    simp only [List.map_append, List.map_cons, List.map_nil,
      List.getLast?_concat]
    unfold summarize postComments
    simp [hnil]

/-- Witness for `get_all_posts_summaries`: after creating a second post in
the reachable demo store, the listing ends with its summary and
`comment_count` 0. -/
theorem get_all_posts_summaries_witness :
    (get_all_posts (create_post demoS2 "U" "More" 2).2.2).2.getLast? =
      some { id := demoS2.nextPostId, title := "U", comment_count := 0,
             created_at := 2 } :=
  (get_all_posts_summaries demoS2 0 "U" "More" 2 demoReachS2).2.2.2
    (by decide)

end Blog
